import Mathlib

/-!
Verification of the `lax` linear-algebra core (dense LU/solve, SVD,
tridiagonal LU) against its natural-language specification.

The three source modules `solve.rs`, `svd.rs` and `tridiagonal.rs` are
shallowly embedded below.  Native LAPACK routines are black boxes: each
embedded operation takes the native routine as a function parameter and
additionally returns the list of native invocations it performed (the
call trace), so that theorems can speak about which native calls happen
and with which arguments.  Rust panics (assertion failures, `unwrap` on
`None`, capacity overflow on huge allocations, out-of-band tridiagonal
access) are modelled by an explicit `PanicOr` result type.
-/

set_option linter.dupNamespace false

namespace Lax

/-- A Rust computation that either panics with a message or yields a value. -/
inductive PanicOr (α : Type) : Type
  | panicked (msg : String)
  | value (a : α)
deriving DecidableEq, Repr

/-- Cast of a Rust `i32` value to `usize` (64-bit), wrapping modulo `2^64`. -/
def usizeCast (i : Int) : Nat := (i % (2 : Int) ^ 64).toNat

/-- Cast of a Rust `usize` value to `i32`, wrapping into `[-2^31, 2^31)`. -/
def i32Cast (n : Nat) : Int := ((n : Int) + 2 ^ 31) % 2 ^ 32 - 2 ^ 31

/-- Largest `isize` value: Rust `Vec` allocations beyond this many elements abort. -/
def isizeMax : Nat := 2 ^ 63 - 1

/-- Panic message of a Rust `Vec` capacity overflow. -/
def capacityOverflow : String := "capacity overflow"

/-- Panic message of `Option::unwrap` applied to `None`. -/
def unwrapNone : String := "called unwrap on a None value"

/-- Panic message of the out-of-bounds assertion in `Tridiagonal` indexing. -/
def indexOutOfShape : String := "ndarray: index is out of bounds for array shape"

/-- Panic message of a Rust slice/`Vec` out-of-bounds read or write. -/
def sliceOutOfBounds : String := "index out of bounds"

/-- Panic message of the dead-code arm for partial singular-vector requests. -/
def unimplementedPartialSvd : String :=
  "SVD with partial vector output is not supported yet"

/-- Panic message of the out-of-band arm of `Tridiagonal` indexing. -/
def notTridiagonalElement : String :=
  "ndarray-linalg tridiagonal: index is not a tridiagonal element"

/-- Panic message of the buffer-length assertion in `lu`. -/
def luLenMismatch : String := "assertion failed: buffer length equals row * col"

/-- Model of `vec_uninit(len)` (defined outside `src`): allocates an
uninitialized buffer of `len` elements, aborting with a capacity overflow
when `len` exceeds `isize::MAX`.  Only the length of the buffer matters in
the embedding (its contents are written by the native routine), so the
model returns the length. -/
def vec_uninit (len : Nat) : PanicOr Nat :=
  if len ≤ isizeMax then .value len else .panicked capacityOverflow

/-- Modelled from the spec: the structured error model (`error.rs` is outside
`src`).  A positive native status code becomes a computational failure
carrying the code; a negative one becomes the fatal invalid-argument error. -/
inductive Error : Type
  | LapackComputationalFailure (return_code : Int)
  | LapackInvalidValue (return_code : Int)
deriving DecidableEq, Repr

instance {ε α : Type} [DecidableEq ε] [DecidableEq α] :
    DecidableEq (Except ε α) := fun a b =>
  match a, b with
  | .error e1, .error e2 =>
    if h : e1 = e2 then isTrue (by rw [h])
    else isFalse (fun hc => h (by injection hc))
  | .error _, .ok _ => isFalse (fun hc => Except.noConfusion hc)
  | .ok _, .error _ => isFalse (fun hc => Except.noConfusion hc)
  | .ok a1, .ok a2 =>
    if h : a1 = a2 then isTrue (by rw [h])
    else isFalse (fun hc => h (by injection hc))

/-- `info.as_lapack_result()`: maps a native status code to the error model. -/
def asLapackResult (info : Int) : Except Error Unit :=
  if info > 0 then .error (.LapackComputationalFailure info)
  else if info < 0 then .error (.LapackInvalidValue info)
  else .ok ()

/-- Modelled from the spec: `MatrixLayout` (`layout.rs` is outside `src`) is
tagged row-major (`C`) or column-major (`F`) and carries the row and column
counts. -/
inductive MatrixLayout : Type
  | C (row : Int) (col : Int)
  | F (row : Int) (col : Int)
deriving DecidableEq, Repr

/-- Modelled from the spec: `size()` returns the `(rows, cols)` pair. -/
def MatrixLayout.size : MatrixLayout → Int × Int
  | .C r c => (r, c)
  | .F r c => (r, c)

/-- Modelled from the spec: the derived leading dimension is the column count
for row-major layouts and the row count for column-major layouts. -/
def MatrixLayout.lda : MatrixLayout → Int
  | .C _ c => c
  | .F r _ => r

/-- Modelled from the spec: `len()` is the dimension complementary to the
leading dimension (row count for row-major, column count for column-major). -/
def MatrixLayout.len : MatrixLayout → Int
  | .C r _ => r
  | .F _ c => c

/-- Transpose mode, as used in `solve.rs` (`flags.rs` is outside `src`;
the spec calls the modes None / Transpose / ConjugateTranspose). -/
inductive Transpose : Type
  | No
  | Transpose
  | Hermite
deriving DecidableEq, Repr

/-- Pivot: ordered sequence of 1-based row-interchange indices (`Vec<i32>`). -/
abbrev Pivot := List Int

/-! ## Dense solve (`solve.rs`, `fn solve`) -/

/-- Arguments of one native `*getrs` invocation, in the order the source
passes them: transpose flag, `n`, `nrhs`, factored matrix, `lda`, pivot,
right-hand-side buffer contents at call time, `ldb`. -/
structure GetrsArgs (A : Type) : Type where
  t : Transpose
  n : Int
  nrhs : Int
  a : List A
  lda : Int
  ipiv : List Int
  b : List A
  ldb : Int
deriving DecidableEq, Repr

/-- Behaviour of a native `*getrs` call: the contents it leaves in the
right-hand-side buffer (as a function of position) and the status code. -/
structure GetrsOut (A : Type) : Type where
  b : Nat → A
  info : Int

/-- Embedding of `Solve_::solve` from `solve.rs` (lines 137-201).
`conjf` is the scalar conjugation (`Scalar::conj`; the identity for real
scalars).  Returns the final contents of the right-hand-side buffer (or the
mapped error) together with the native call trace. -/
def solve {A : Type} (conjf : A → A) (getrs : GetrsArgs A → GetrsOut A)
    (l : MatrixLayout) (t : Transpose) (a : List A) (ipiv : List Int)
    (b : List A) : Except Error (List A) × List (GetrsArgs A) :=
  let tc : Transpose × Bool :=
    match l with
    | .C _ _ =>
      match t with
      | .No => (.Transpose, false)
      | .Transpose => (.No, false)
      | .Hermite => (.No, true)
    | .F _ _ => (t, false)
  let n := l.size.1
  let nrhs : Int := 1
  let ldb := l.lda
  let b1 := if tc.2 then b.map conjf else b
  let args : GetrsArgs A := ⟨tc.1, n, nrhs, a, l.lda, ipiv, b1, ldb⟩
  let out := getrs args
  let b2 := (List.range b1.length).map out.b
  let b3 := if tc.2 then b2.map conjf else b2
  match asLapackResult out.info with
  | .error e => (.error e, [args])
  | .ok _ => (.ok b3, [args])

/-! ## Dense LU and inverse (`solve.rs`, `fn lu` and `fn inv`) -/

/-- Arguments of one native `*getrf` invocation, in the order the source
passes them (`&l.lda()`, `&l.len()`, matrix, `&l.lda()`), plus the length
of the uninitialized pivot buffer supplied to the routine. -/
structure GetrfArgs (A : Type) : Type where
  m : Int
  n : Int
  a : List A
  lda : Int
  ipivLen : Nat
deriving DecidableEq, Repr

/-- Behaviour of a native `*getrf` call: contents written into the matrix
buffer and the pivot buffer, and the status code. -/
structure GetrfOut (A : Type) : Type where
  a : Nat → A
  ipiv : Nat → Int
  info : Int

/-- Embedding of `Solve_::lu` from `solve.rs` (lines 70-93): asserts the
buffer length, skips the native call for a zero dimension, otherwise
allocates the pivot buffer of `min(row, col)` entries, invokes `*getrf`
and maps the status code. -/
def lu {A : Type} (getrf : GetrfArgs A → GetrfOut A) (l : MatrixLayout)
    (a : List A) :
    PanicOr (Except Error (List A × Pivot)) × List (GetrfArgs A) :=
  let row := l.size.1
  let col := l.size.2
  if i32Cast a.length = row * col then
    if row = 0 ∨ col = 0 then (.value (.ok (a, [])), [])
    else
      let k := min row col
      match vec_uninit (usizeCast k) with
      | .panicked m => (.panicked m, [])
      | .value ipivLen =>
        let args : GetrfArgs A := ⟨l.lda, l.len, a, l.lda, ipivLen⟩
        let out := getrf args
        match asLapackResult out.info with
        | .error e => (.value (.error e), [args])
        | .ok _ =>
          (.value (.ok ((List.range a.length).map out.a,
                        (List.range ipivLen).map out.ipiv)), [args])
  else (.panicked luLenMismatch, [])

/-- Arguments of one native `*getri` invocation: `n`, matrix contents at call
time, `lda`, pivot, length of the supplied work buffer and the requested
`lwork` value. -/
structure GetriArgs (A : Type) : Type where
  n : Int
  a : List A
  lda : Int
  ipiv : List Int
  workLen : Nat
  lwork : Int
deriving DecidableEq, Repr

/-- Behaviour of a native `*getri` call: contents written into the matrix
buffer and the work buffer, and the status code. -/
structure GetriOut (A : Type) : Type where
  a : Nat → A
  work : Nat → A
  info : Int

/-- Embedding of `Solve_::inv` from `solve.rs` (lines 95-135): skips the
native call when `l.size().0 == 0`, otherwise performs the two-phase
workspace protocol (query with a single-element slot and `lwork = -1`,
read the optimal count back via `to_usize().unwrap()`, allocate exactly
that many elements, then the real call). -/
def inv {A : Type} (toUsize : A → Option Nat)
    (getri : GetriArgs A → GetriOut A) (l : MatrixLayout) (a : List A)
    (ipiv : List Int) :
    PanicOr (Except Error (List A)) × List (GetriArgs A) :=
  let n := l.size.1
  if n = 0 then (.value (.ok a), [])
  else
    let qargs : GetriArgs A := ⟨n, a, l.lda, ipiv, 1, -1⟩
    let qout := getri qargs
    match asLapackResult qout.info with
    | .error e => (.value (.error e), [qargs])
    | .ok _ =>
      match toUsize (qout.work 0) with
      | none => (.panicked unwrapNone, [qargs])
      | some lwork =>
        match vec_uninit lwork with
        | .panicked m => (.panicked m, [qargs])
        | .value workLen =>
          let a1 := (List.range a.length).map qout.a
          let rargs : GetriArgs A :=
            ⟨l.len, a1, l.lda, ipiv, workLen, i32Cast lwork⟩
          let rout := getri rargs
          match asLapackResult rout.info with
          | .error e => (.value (.error e), [qargs, rargs])
          | .ok _ =>
            (.value (.ok ((List.range a.length).map rout.a)), [qargs, rargs])

/-- A value of `usize` size that fits in `isize` casts and allocates cleanly. -/
theorem usizeCast_small {x : Int} (h0 : 0 ≤ x) (h1 : x < 2 ^ 63) :
    usizeCast x = x.toNat ∧ x.toNat ≤ isizeMax := by
  unfold usizeCast isizeMax
  omega

/-- Claim C1: for a dense solve on a row-major (`C`) layout the transpose
mode is remapped before the native call as None → Transpose and
Transpose → None with no conjugation, while ConjugateTranspose becomes None
with element-wise conjugation of the right-hand side immediately before the
native call and of the solution immediately after it; on a column-major
(`F`) layout the mode is passed through unchanged with no conjugation. -/
theorem c1_solve_transpose_dispatch {A : Type} (conjf : A → A)
    (getrs : GetrsArgs A → GetrsOut A) (a : List A) (ipiv : List Int)
    (b : List A) (r c : Int) :
    (solve conjf getrs (.C r c) .No a ipiv b =
      (let args : GetrsArgs A := ⟨.Transpose, r, 1, a, c, ipiv, b, c⟩
       match asLapackResult (getrs args).info with
       | .error e => (.error e, [args])
       | .ok _ => (.ok ((List.range b.length).map (getrs args).b), [args]))) ∧
    (solve conjf getrs (.C r c) .Transpose a ipiv b =
      (let args : GetrsArgs A := ⟨.No, r, 1, a, c, ipiv, b, c⟩
       match asLapackResult (getrs args).info with
       | .error e => (.error e, [args])
       | .ok _ => (.ok ((List.range b.length).map (getrs args).b), [args]))) ∧
    (solve conjf getrs (.C r c) .Hermite a ipiv b =
      (let args : GetrsArgs A := ⟨.No, r, 1, a, c, ipiv, b.map conjf, c⟩
       match asLapackResult (getrs args).info with
       | .error e => (.error e, [args])
       | .ok _ =>
          (.ok (((List.range b.length).map (getrs args).b).map conjf),
           [args]))) ∧
    (∀ t0, solve conjf getrs (.F r c) t0 a ipiv b =
      (let args : GetrsArgs A := ⟨t0, r, 1, a, r, ipiv, b, r⟩
       match asLapackResult (getrs args).info with
       | .error e => (.error e, [args])
       | .ok _ => (.ok ((List.range b.length).map (getrs args).b), [args]))) := by
  refine ⟨rfl, rfl, ?_, fun t0 => rfl⟩
  simp [solve, MatrixLayout.size, MatrixLayout.lda, List.length_map]

/-! ## Singular value decomposition (`svd.rs`) -/

/-- Modelled from the spec: the singular-vector request (`flags.rs` is
outside `src`) is "compute all vectors for that side", a partial subset,
or "compute none"; only `All` and `None` are supported. -/
inductive JobSvd : Type
  | All
  | Some
  | None
deriving DecidableEq, Repr

/-- Modelled from the spec: the boolean request flag maps to `All` or `None`. -/
def JobSvd.from_bool (b : Bool) : JobSvd := if b then .All else .None

/-- Result of SVD (`svd.rs` lines 8-15); singular values are real. -/
structure SVDOutput (A : Type) : Type where
  s : List ℤ
  u : Option (List A)
  vt : Option (List A)
deriving DecidableEq, Repr

/-- Arguments of one native `*gesvd` invocation, in the order the source
passes them, with buffer lengths for the output slots; `rworkLen` is present
exactly for the complex instantiations. -/
structure GesvdArgs (A : Type) : Type where
  ju : JobSvd
  jvt : JobSvd
  m : Int
  n : Int
  a : List A
  lda : Int
  sLen : Nat
  uLen : Nat
  ldu : Int
  vtLen : Nat
  ldvt : Int
  workLen : Nat
  lwork : Int
  rworkLen : Option Nat
deriving DecidableEq, Repr

/-- Behaviour of a native `*gesvd` call: contents written into each supplied
buffer and the status code. -/
structure GesvdOut (A : Type) : Type where
  a : Nat → A
  s : Nat → ℤ
  u : Nat → A
  vt : Nat → A
  work : Nat → A
  info : Int

/-- The singular-vector buffer allocation arms of `svd.rs` (lines 53-57 and
60-64): `All` allocates a square `dim * dim` buffer, `None` allocates
nothing, and any other job hits the unimplemented-feature panic arm. -/
def allocJob (j : JobSvd) (dim : Int) : PanicOr (Option Nat) :=
  match j with
  | .All =>
    match vec_uninit (usizeCast (dim * dim)) with
    | .panicked msg => .panicked msg
    | .value len => .value (some len)
  | .None => .value none
  | .Some => .panicked unimplementedPartialSvd

/-- Body of `SVD_::svd` from `svd.rs` (lines 52-128), taking the two job
flags already selected: allocate the vector buffers (or panic on a partial
job), the singular-value buffer of `min(m, n)` elements and, for complex
scalars, the real scratch buffer of `5 * min(m, n)` elements; then the
two-phase native call with the workspace-sizing query, and finally the
result assembly that swaps the two vector matrices for `C` layouts. -/
def svd_with_jobs {A : Type} (hasRwork : Bool) (toUsize : A → Option Nat)
    (gesvd : GesvdArgs A → GesvdOut A) (l : MatrixLayout) (ju jvt : JobSvd)
    (a : List A) :
    PanicOr (Except Error (SVDOutput A)) × List (GesvdArgs A) :=
  let m := l.lda
  match allocJob ju m with
  | .panicked msg => (.panicked msg, [])
  | .value uod =>
  let n := l.len
  match allocJob jvt n with
  | .panicked msg => (.panicked msg, [])
  | .value vtod =>
  let k := min m n
  match vec_uninit (usizeCast k) with
  | .panicked msg => (.panicked msg, [])
  | .value sLen =>
  match (if hasRwork then
           match vec_uninit (5 * usizeCast k) with
           | .panicked msg => PanicOr.panicked msg
           | .value rl => PanicOr.value (some rl)
         else PanicOr.value (Option.none : Option Nat)) with
  | .panicked msg => (.panicked msg, [])
  | .value rwod =>
  let qargs : GesvdArgs A :=
    ⟨ju, jvt, m, n, a, m, sLen, uod.getD 0, m, vtod.getD 0, n, 1, -1, rwod⟩
  let qout := gesvd qargs
  match asLapackResult qout.info with
  | .error e => (.value (.error e), [qargs])
  | .ok _ =>
  match toUsize (qout.work 0) with
  | Option.none => (.panicked unwrapNone, [qargs])
  | Option.some lwork =>
  match vec_uninit lwork with
  | .panicked msg => (.panicked msg, [qargs])
  | .value workLen =>
  let a1 := (List.range a.length).map qout.a
  let rargs : GesvdArgs A :=
    ⟨ju, jvt, m, n, a1, m, sLen, uod.getD 0, m, vtod.getD 0, n,
     workLen, i32Cast lwork, rwod⟩
  let rout := gesvd rargs
  match asLapackResult rout.info with
  | .error e => (.value (.error e), [qargs, rargs])
  | .ok _ =>
  let s := (List.range sLen).map rout.s
  let u := uod.map (fun len => (List.range len).map rout.u)
  let vt := vtod.map (fun len => (List.range len).map rout.vt)
  match l with
  | .F _ _ => (.value (.ok ⟨s, u, vt⟩), [qargs, rargs])
  | .C _ _ => (.value (.ok ⟨s, vt, u⟩), [qargs, rargs])

/-- Job selection for the left-vector slot (`svd.rs` lines 43-46): taken
from `calc_u` for column-major input and from `calc_vt` for row-major. -/
def jobU (l : MatrixLayout) (calc_u calc_vt : Bool) : JobSvd :=
  match l with
  | .F _ _ => JobSvd.from_bool calc_u
  | .C _ _ => JobSvd.from_bool calc_vt

/-- Job selection for the right-vector slot (`svd.rs` lines 47-50). -/
def jobVt (l : MatrixLayout) (calc_u calc_vt : Bool) : JobSvd :=
  match l with
  | .F _ _ => JobSvd.from_bool calc_vt
  | .C _ _ => JobSvd.from_bool calc_u

/-- Embedding of `SVD_::svd` from `svd.rs` (lines 42-129). -/
def svd {A : Type} (hasRwork : Bool) (toUsize : A → Option Nat)
    (gesvd : GesvdArgs A → GesvdOut A) (l : MatrixLayout)
    (calc_u calc_vt : Bool) (a : List A) :
    PanicOr (Except Error (SVDOutput A)) × List (GesvdArgs A) :=
  svd_with_jobs hasRwork toUsize gesvd l
    (jobU l calc_u calc_vt) (jobVt l calc_u calc_vt) a

/-- Buffer length handed to the native routine for a supported job. -/
def uLenOf (j : JobSvd) (dim : Int) : Option Nat :=
  match j with
  | .All => Option.some (usizeCast (dim * dim))
  | _ => Option.none

/-- Allocation for a boolean-derived job always succeeds for `i32`-sized
dimensions. -/
theorem allocJob_from_bool (b : Bool) (d : Int) (h0 : 0 ≤ d)
    (h1 : d ≤ 2 ^ 31) :
    allocJob (JobSvd.from_bool b) d =
      .value (uLenOf (JobSvd.from_bool b) d) := by
  cases b with
  | false => simp [JobSvd.from_bool, allocJob, uLenOf]
  | true =>
    have hm0 : 0 ≤ d * d := mul_nonneg h0 h0
    have hm1 : d * d < 2 ^ 63 := by nlinarith
    obtain ⟨hc, hle⟩ := usizeCast_small hm0 hm1
    simp [JobSvd.from_bool, allocJob, uLenOf, vec_uninit, hc, hle]

/-- The left-slot allocation in `svd` succeeds and has the expected size. -/
theorem allocJob_jobU (l : MatrixLayout) (cu cvt : Bool) (h0 : 0 ≤ l.lda)
    (h1 : l.lda ≤ 2 ^ 31) :
    allocJob (jobU l cu cvt) l.lda = .value (uLenOf (jobU l cu cvt) l.lda) := by
  cases l with
  | C r c => exact allocJob_from_bool cvt _ h0 h1
  | F r c => exact allocJob_from_bool cu _ h0 h1

/-- The right-slot allocation in `svd` succeeds and has the expected size. -/
theorem allocJob_jobVt (l : MatrixLayout) (cu cvt : Bool) (h2 : 0 ≤ l.len)
    (h3 : l.len ≤ 2 ^ 31) :
    allocJob (jobVt l cu cvt) l.len =
      .value (uLenOf (jobVt l cu cvt) l.len) := by
  cases l with
  | C r c => exact allocJob_from_bool cu _ h2 h3
  | F r c => exact allocJob_from_bool cvt _ h2 h3

/-- The query-phase arguments `svd` passes to the native routine. -/
def svdQArgs {A : Type} (hasRwork : Bool) (l : MatrixLayout)
    (calc_u calc_vt : Bool) (a : List A) : GesvdArgs A :=
  ⟨jobU l calc_u calc_vt, jobVt l calc_u calc_vt, l.lda, l.len, a, l.lda,
   usizeCast (min l.lda l.len), (uLenOf (jobU l calc_u calc_vt) l.lda).getD 0,
   l.lda, (uLenOf (jobVt l calc_u calc_vt) l.len).getD 0, l.len, 1, -1,
   if hasRwork then Option.some (5 * usizeCast (min l.lda l.len))
   else Option.none⟩

/-- The computation-phase arguments `svd` passes to the native routine. -/
def svdRArgs {A : Type} (hasRwork : Bool) (gesvd : GesvdArgs A → GesvdOut A)
    (l : MatrixLayout) (calc_u calc_vt : Bool) (a : List A) (lw : Nat) :
    GesvdArgs A :=
  { svdQArgs hasRwork l calc_u calc_vt a with
    a := (List.range a.length).map
      (gesvd (svdQArgs hasRwork l calc_u calc_vt a)).a
    workLen := lw
    lwork := i32Cast lw }

/-- The output `svd` assembles on the all-success path. -/
def svdExpected {A : Type} (hasRwork : Bool) (gesvd : GesvdArgs A → GesvdOut A)
    (l : MatrixLayout) (calc_u calc_vt : Bool) (a : List A) (lw : Nat) :
    SVDOutput A :=
  let rout := gesvd (svdRArgs hasRwork gesvd l calc_u calc_vt a lw)
  let s := (List.range (usizeCast (min l.lda l.len))).map rout.s
  let u := (uLenOf (jobU l calc_u calc_vt) l.lda).map
    (fun len => (List.range len).map rout.u)
  let vt := (uLenOf (jobVt l calc_u calc_vt) l.len).map
    (fun len => (List.range len).map rout.vt)
  match l with
  | .F _ _ => ⟨s, u, vt⟩
  | .C _ _ => ⟨s, vt, u⟩

/-- Full evaluation of `svd` when the native routine always succeeds and the
workspace query reads back `lw`. -/
theorem svd_eval {A : Type} (hasRwork : Bool) (toUsize : A → Option Nat)
    (gesvd : GesvdArgs A → GesvdOut A) (l : MatrixLayout)
    (calc_u calc_vt : Bool) (a : List A) (lw : Nat)
    (htu : ∀ x, toUsize x = Option.some lw) (hlw : lw ≤ isizeMax)
    (hgs : ∀ args, (gesvd args).info = 0)
    (h0 : 0 ≤ l.lda) (h1 : l.lda ≤ 2 ^ 31)
    (h2 : 0 ≤ l.len) (h3 : l.len ≤ 2 ^ 31) :
    svd hasRwork toUsize gesvd l calc_u calc_vt a =
      (.value (.ok (svdExpected hasRwork gesvd l calc_u calc_vt a lw)),
       [svdQArgs hasRwork l calc_u calc_vt a,
        svdRArgs hasRwork gesvd l calc_u calc_vt a lw]) := by
  have hJu := allocJob_jobU l calc_u calc_vt h0 h1
  have hJvt := allocJob_jobVt l calc_u calc_vt h2 h3
  have hk0 : 0 ≤ min l.lda l.len := le_min h0 h2
  have hk1 : min l.lda l.len < 2 ^ 63 :=
    lt_of_le_of_lt (min_le_left _ _) (lt_of_le_of_lt h1 (by norm_num))
  obtain ⟨hkc, hkle⟩ := usizeCast_small hk0 hk1
  have hsle : usizeCast (min l.lda l.len) ≤ isizeMax := hkc ▸ hkle
  have htn : (min l.lda l.len).toNat ≤ 2 ^ 31 := by
    have := min_le_left l.lda l.len
    omega
  have h5le : 5 * usizeCast (min l.lda l.len) ≤ isizeMax := by
    rw [hkc]
    simp only [isizeMax]
    omega
  cases hasRwork <;> cases l <;>
    simp [svd, svd_with_jobs, svdQArgs, svdRArgs, svdExpected, hJu, hJvt,
      vec_uninit, hsle, h5le, hgs, htu, hlw, asLapackResult]

/-- Claim C4: requesting a partial singular-vector mode for either side hits
the unimplemented-feature panic deterministically before any native call
(the call trace is empty), independently of the matrix contents. -/
theorem c4_svd_partial_unimplemented {A : Type} (hasRwork : Bool)
    (toUsize : A → Option Nat) (gesvd : GesvdArgs A → GesvdOut A)
    (l : MatrixLayout) (ju jvt : JobSvd) (a : List A)
    (hpart : ju = .Some ∨ jvt = .Some)
    (hm0 : 0 ≤ l.lda) (hm1 : l.lda ≤ 2 ^ 31) :
    svd_with_jobs hasRwork toUsize gesvd l ju jvt a =
      (.panicked unimplementedPartialSvd, []) := by
  rcases hpart with h | h
  · subst h
    simp [svd_with_jobs, allocJob]
  · subst h
    cases ju with
    | Some => simp [svd_with_jobs, allocJob]
    | None => simp [svd_with_jobs, allocJob]
    | All =>
      have hm2 : 0 ≤ l.lda * l.lda := mul_nonneg hm0 hm0
      have hm3 : l.lda * l.lda < 2 ^ 63 := by nlinarith
      obtain ⟨hc, hle⟩ := usizeCast_small hm2 hm3
      simp [svd_with_jobs, allocJob, vec_uninit, hc, hle]

/-- Claim C5: on a row-major layout the native job flags are swapped (the
native left job comes from `calc_vt`, the native right job from `calc_u`)
and the two result matrices are swapped back: the returned left matrix is
present exactly when `calc_u` was requested, with `rows * rows` elements;
the returned right matrix exactly when `calc_vt` was requested, with
`cols * cols` elements; the singular-value vector has `min(rows, cols)`
entries. -/
theorem c5_svd_row_major_swap {A : Type} (hasRwork : Bool)
    (toUsize : A → Option Nat) (gesvd : GesvdArgs A → GesvdOut A)
    (r c : Int) (calc_u calc_vt : Bool) (a : List A) (lw : Nat)
    (htu : ∀ x, toUsize x = Option.some lw) (hlw : lw ≤ isizeMax)
    (hgs : ∀ args, (gesvd args).info = 0)
    (h0 : 0 ≤ r) (h1 : r ≤ 2 ^ 31) (h2 : 0 ≤ c) (h3 : c ≤ 2 ^ 31) :
    ∃ (qargs rargs : GesvdArgs A) (out : SVDOutput A),
      svd hasRwork toUsize gesvd (.C r c) calc_u calc_vt a =
        (.value (.ok out), [qargs, rargs]) ∧
      qargs.ju = JobSvd.from_bool calc_vt ∧
      qargs.jvt = JobSvd.from_bool calc_u ∧
      rargs.ju = JobSvd.from_bool calc_vt ∧
      rargs.jvt = JobSvd.from_bool calc_u ∧
      out.u = (if calc_u then
          Option.some ((List.range ((r * r).toNat)).map (gesvd rargs).vt)
        else Option.none) ∧
      out.vt = (if calc_vt then
          Option.some ((List.range ((c * c).toNat)).map (gesvd rargs).u)
        else Option.none) ∧
      out.u.map List.length =
        (if calc_u then Option.some ((r * r).toNat) else Option.none) ∧
      out.vt.map List.length =
        (if calc_vt then Option.some ((c * c).toNat) else Option.none) ∧
      out.s.length = (min r c).toNat := by
  obtain ⟨hrc, -⟩ := usizeCast_small (mul_nonneg h0 h0)
    (show r * r < 2 ^ 63 by nlinarith)
  obtain ⟨hcc, -⟩ := usizeCast_small (mul_nonneg h2 h2)
    (show c * c < 2 ^ 63 by nlinarith)
  obtain ⟨hmin, -⟩ := usizeCast_small (le_min h2 h0)
    (lt_of_le_of_lt (min_le_left _ _) (lt_of_le_of_lt h3 (by norm_num)))
  refine ⟨svdQArgs hasRwork (.C r c) calc_u calc_vt a,
    svdRArgs hasRwork gesvd (.C r c) calc_u calc_vt a lw,
    svdExpected hasRwork gesvd (.C r c) calc_u calc_vt a lw,
    svd_eval hasRwork toUsize gesvd (.C r c) calc_u calc_vt a lw htu hlw hgs
      h2 h3 h0 h1, rfl, rfl, rfl, rfl, ?_, ?_, ?_, ?_, ?_⟩ <;>
    cases calc_u <;> cases calc_vt <;>
      simp [svdExpected, svdRArgs, svdQArgs, jobU, jobVt, uLenOf,
        JobSvd.from_bool, MatrixLayout.lda, MatrixLayout.len, hrc, hcc, hmin,
        min_comm r c]

/-- Claim C6: the dense inverse and svd follow the two-phase workspace
protocol — a first native call with `lwork = -1` and a single-element work
slot, the optimal count `lw` read back and converted, and a second native
call with a work buffer of exactly `lw` elements — while complex svd
additionally carries a real scratch buffer of `5 * min(m, n)` elements in
both phases, never subjected to the sizing query. -/
theorem c6_workspace_protocol {A : Type} (toUsize : A → Option Nat) (lw : Nat)
    (htu : ∀ x, toUsize x = Option.some lw) (hlw : lw ≤ isizeMax)
    (getri : GetriArgs A → GetriOut A) (hgi : ∀ args, (getri args).info = 0)
    (gesvd : GesvdArgs A → GesvdOut A) (hgs : ∀ args, (gesvd args).info = 0)
    (l1 l2 : MatrixLayout) (a1 a2 : List A) (ipiv : List Int)
    (calc_u calc_vt : Bool) (hasRwork : Bool) (hn : l1.size.1 ≠ 0)
    (h0 : 0 ≤ l2.lda) (h1 : l2.lda ≤ 2 ^ 31) (h2 : 0 ≤ l2.len)
    (h3 : l2.len ≤ 2 ^ 31) :
    (inv toUsize getri l1 a1 ipiv).2 =
      [⟨l1.size.1, a1, l1.lda, ipiv, 1, -1⟩,
       ⟨l1.len, (List.range a1.length).map
          (getri ⟨l1.size.1, a1, l1.lda, ipiv, 1, -1⟩).a,
        l1.lda, ipiv, lw, i32Cast lw⟩] ∧
    (∃ qargs rargs : GesvdArgs A,
      (svd hasRwork toUsize gesvd l2 calc_u calc_vt a2).2 = [qargs, rargs] ∧
      qargs.workLen = 1 ∧ qargs.lwork = -1 ∧
      rargs.workLen = lw ∧ rargs.lwork = i32Cast lw ∧
      qargs.rworkLen =
        (if hasRwork then Option.some (5 * (min l2.lda l2.len).toNat)
         else Option.none) ∧
      rargs.rworkLen = qargs.rworkLen) := by
  obtain ⟨hmin, -⟩ := usizeCast_small (le_min h0 h2)
    (lt_of_le_of_lt (min_le_left _ _) (lt_of_le_of_lt h1 (by norm_num)))
  constructor
  · simp [inv, hn, hgi, htu, asLapackResult, vec_uninit, hlw]
  · refine ⟨svdQArgs hasRwork l2 calc_u calc_vt a2,
      svdRArgs hasRwork gesvd l2 calc_u calc_vt a2 lw, ?_, rfl, rfl, rfl,
      rfl, ?_, rfl⟩
    · rw [svd_eval hasRwork toUsize gesvd l2 calc_u calc_vt a2 lw htu hlw hgs
        h0 h1 h2 h3]
    · cases hasRwork <;> simp [svdQArgs, hmin]

/-! ## Tridiagonal matrices (`tridiagonal.rs`) -/

/-- The compact tridiagonal representation (`tridiagonal.rs` lines 18-28):
layout of the conceptual `n`×`n` matrix plus the sub-diagonal, diagonal and
super-diagonal bands. -/
structure Tridiagonal (A : Type) : Type where
  l : MatrixLayout
  dl : List A
  d : List A
  du : List A
deriving DecidableEq, Repr

/-- Absolute value of a band entry, zero out of range (used only where the
corresponding source access is guarded or in range). -/
def absAt {A : Type} (absf : A → ℤ) (xs : List A) (j : Nat) : ℤ :=
  match xs.get? j with
  | Option.some v => absf v
  | Option.none => 0

/-- Sequence a panic-capable computation over a list, stopping at the first
panic (the behaviour of a Rust `for` loop). -/
def traverseP {α β : Type} (f : α → PanicOr β) : List α → PanicOr (List β)
  | [] => .value []
  | x :: xs =>
    match f x with
    | .panicked m => .panicked m
    | .value y =>
      match traverseP f xs with
      | .panicked m => .panicked m
      | .value ys => .value (y :: ys)

/-- One iteration of the `opnorm_one` column loop (`tridiagonal.rs` lines
33-40): column `i` starts from `|d[i]|`, adds `|dl[i]|` under the guard
`i < dl.len()`, and for `i > 0` adds `|du[i-1]|` through an unguarded
access that panics when `du` is shorter than the loop expects. -/
def colSumAt {A : Type} (absf : A → ℤ) (t : Tridiagonal A) (i : Nat) :
    PanicOr ℤ :=
  let s1 := absAt absf t.d i +
    (if i < t.dl.length then absAt absf t.dl i else 0)
  if 0 < i then
    match t.du.get? (i - 1) with
    | Option.none => .panicked sliceOutOfBounds
    | Option.some v => .value (s1 + absf v)
  else .value s1

/-- Embedding of `Tridiagonal::opnorm_one` (`tridiagonal.rs` lines 31-48):
the column absolute sums followed by a strict-comparison maximum loop
starting from zero. -/
def opnorm_one {A : Type} (absf : A → ℤ) (t : Tridiagonal A) : PanicOr ℤ :=
  match traverseP (colSumAt absf t) (List.range t.d.length) with
  | .panicked m => .panicked m
  | .value col_sum =>
    .value (col_sum.foldl (fun mx v => if mx < v then v else mx) 0)

/-- A Rust `Vec` read with the bounds-check panic. -/
def listGetP {A : Type} (xs : List A) (i : Nat) : PanicOr A :=
  match xs.get? i with
  | Option.some v => .value v
  | Option.none => .panicked sliceOutOfBounds

/-- A Rust `Vec` write with the bounds-check panic. -/
def listSetP {A : Type} (xs : List A) (i : Nat) (v : A) : PanicOr (List A) :=
  if i < xs.length then .value (xs.set i v) else .panicked sliceOutOfBounds

/-- Embedding of `Index<(i32, i32)> for Tridiagonal` (`tridiagonal.rs`
lines 68-89): shape assertion, then dispatch on `row - col`. -/
def Tridiagonal.index {A : Type} (t : Tridiagonal A) (row col : Int) :
    PanicOr A :=
  let n := t.l.size.1
  if max row col < n then
    if row - col = 0 then listGetP t.d (usizeCast row)
    else if row - col = 1 then listGetP t.dl (usizeCast col)
    else if row - col = -1 then listGetP t.du (usizeCast row)
    else .panicked notTridiagonalElement
  else .panicked indexOutOfShape

/-- Embedding of `IndexMut<(i32, i32)> for Tridiagonal` followed by a store
through the returned reference (`tridiagonal.rs` lines 99-119). -/
def Tridiagonal.index_mut_store {A : Type} (t : Tridiagonal A)
    (row col : Int) (v : A) : PanicOr (Tridiagonal A) :=
  let n := t.l.size.1
  if max row col < n then
    if row - col = 0 then
      match listSetP t.d (usizeCast row) v with
      | .panicked m => .panicked m
      | .value d2 => .value { t with d := d2 }
    else if row - col = 1 then
      match listSetP t.dl (usizeCast col) v with
      | .panicked m => .panicked m
      | .value dl2 => .value { t with dl := dl2 }
    else if row - col = -1 then
      match listSetP t.du (usizeCast row) v with
      | .panicked m => .panicked m
      | .value du2 => .value { t with du := du2 }
    else .panicked notTridiagonalElement
  else .panicked indexOutOfShape

/-- Claim C8: reading or writing a tridiagonal element at an in-shape index
pair lying outside the three bands panics with the structural error and
never yields or stores a value. -/
theorem c8_tridiagonal_out_of_band {A : Type} (t : Tridiagonal A)
    (row col : Int) (hin : max row col < t.l.size.1)
    (hband : 1 < |row - col|) :
    t.index row col = .panicked notTridiagonalElement ∧
    ∀ v, t.index_mut_store row col v = .panicked notTridiagonalElement := by
  have h1 : row - col ≠ 0 ∧ row - col ≠ 1 ∧ row - col ≠ -1 := by
    rcases le_or_lt 0 (row - col) with h | h
    · rw [abs_of_nonneg h] at hband
      omega
    · rw [abs_of_neg h] at hband
      omega
  constructor
  · simp [Tridiagonal.index, hin, h1.1, h1.2.1, h1.2.2]
  · intro v
    simp [Tridiagonal.index_mut_store, hin, h1.1, h1.2.1, h1.2.2]

/-- Witness for C8 at the concrete in-shape out-of-band index (0, 2) of a
3×3 tridiagonal matrix. -/
theorem c8_tridiagonal_out_of_band_witness :
    (Tridiagonal.mk (MatrixLayout.C 3 3) [1, 1] ([4, 4, 4] : List ℚ)
        [1, 1]).index 0 2 = .panicked notTridiagonalElement ∧
    (Tridiagonal.mk (MatrixLayout.C 3 3) [1, 1] ([4, 4, 4] : List ℚ)
        [1, 1]).index_mut_store 0 2 7 = .panicked notTridiagonalElement :=
  ⟨(c8_tridiagonal_out_of_band _ 0 2 (by decide) (by decide)).1,
   (c8_tridiagonal_out_of_band _ 0 2 (by decide) (by decide)).2 7⟩

/-! ### Claim C7: the one-norm formula -/

/-- Column absolute sum exactly as the claim states it: `|d[j]|` plus
`|dl[0]|` alone for column 0, `|du[n-2]|` alone for column `n-1`, and both
`|dl[j]|` and `|du[j-1]|` for interior columns. -/
def claimColSum {A : Type} (absf : A → ℤ) (t : Tridiagonal A) (n j : Nat) :
    ℤ :=
  absAt absf t.d j +
    (if j = 0 then absAt absf t.dl 0
     else if j = n - 1 then absAt absf t.du (n - 2)
     else absAt absf t.dl j + absAt absf t.du (j - 1))

/-- A panic-free traversal is the corresponding map. -/
theorem traverseP_eq_map {α β : Type} (f : α → PanicOr β) (g : α → β)
    (l : List α) (h : ∀ x ∈ l, f x = .value (g x)) :
    traverseP f l = .value (l.map g) := by
  induction l with
  | nil => rfl
  | cons x xs ih =>
    simp only [traverseP, h x (by simp), List.map_cons,
      ih (fun y hy => h y (by simp [hy]))]

/-- The strict-comparison maximum loop never drops below its accumulator. -/
theorem foldl_maxStep_init_le (l : List ℤ) :
    ∀ a : ℤ, a ≤ l.foldl (fun mx v => if mx < v then v else mx) a := by
  induction l with
  | nil =>
    intro a
    simp
  | cons x xs ih =>
    intro a
    simp only [List.foldl_cons]
    refine le_trans ?_ (ih _)
    by_cases h : a < x
    · simp [h, le_of_lt h]
    · simp [h]

/-- The strict-comparison maximum loop bounds every element of the list. -/
theorem foldl_maxStep_le (l : List ℤ) :
    ∀ a x : ℤ, x ∈ l →
      x ≤ l.foldl (fun mx v => if mx < v then v else mx) a := by
  induction l with
  | nil =>
    intro a x hx
    simp at hx
  | cons y ys ih =>
    intro a x hx
    simp only [List.foldl_cons]
    rcases List.mem_cons.mp hx with h | h
    · subst h
      refine le_trans ?_ (foldl_maxStep_init_le ys _)
      by_cases hxy : a < x
      · simp [hxy]
      · simp [hxy]
        exact le_of_not_lt hxy
    · exact ih _ x h

/-- The strict-comparison maximum loop returns its accumulator or a member. -/
theorem foldl_maxStep_mem (l : List ℤ) :
    ∀ a : ℤ, l.foldl (fun mx v => if mx < v then v else mx) a = a ∨
      l.foldl (fun mx v => if mx < v then v else mx) a ∈ l := by
  induction l with
  | nil =>
    intro a
    left
    rfl
  | cons x xs ih =>
    intro a
    simp only [List.foldl_cons]
    rcases ih (if a < x then x else a) with h | h
    · rw [h]
      by_cases hax : a < x
      · right
        simp [hax]
      · left
        simp [hax]
    · right
      exact List.mem_cons_of_mem _ h

/-- `absAt` vanishes out of range. -/
theorem absAt_of_le {A : Type} (absf : A → ℤ) (xs : List A) (j : Nat)
    (h : xs.length ≤ j) : absAt absf xs j = 0 := by
  unfold absAt
  rw [List.get?_eq_none.mpr h]

/-- `absAt` is nonnegative for a nonnegative scalar absolute value. -/
theorem absAt_nonneg {A : Type} (absf : A → ℤ) (xs : List A) (j : Nat)
    (habs : ∀ x, 0 ≤ absf x) : 0 ≤ absAt absf xs j := by
  unfold absAt
  cases xs.get? j with
  | none => simp
  | some v => exact habs v

/-- The claim-side column sum is nonnegative. -/
theorem claimColSum_nonneg {A : Type} (absf : A → ℤ) (t : Tridiagonal A)
    (n j : Nat) (habs : ∀ x, 0 ≤ absf x) : 0 ≤ claimColSum absf t n j := by
  unfold claimColSum
  refine add_nonneg (absAt_nonneg _ _ _ habs) ?_
  split
  · exact absAt_nonneg _ _ _ habs
  · split
    · exact absAt_nonneg _ _ _ habs
    · exact add_nonneg (absAt_nonneg _ _ _ habs) (absAt_nonneg _ _ _ habs)

/-- Under the band-length invariants, each loop iteration of `opnorm_one`
computes exactly the claim-side column sum. -/
theorem colSumAt_eq_claim {A : Type} (absf : A → ℤ) (t : Tridiagonal A)
    (n i : Nat) (hd : t.d.length = n) (hdl : t.dl.length = n - 1)
    (hdu : t.du.length = n - 1) (hi : i < n) :
    colSumAt absf t i = .value (claimColSum absf t n i) := by
  simp only [colSumAt, claimColSum]
  by_cases h0 : 0 < i
  · have hi1 : i ≠ 0 := by omega
    have hlt : i - 1 < t.du.length := by omega
    have hv : t.du.get? (i - 1) = Option.some (t.du.get ⟨i - 1, hlt⟩) :=
      List.get?_eq_get hlt
    have habsdu : absf (t.du.get ⟨i - 1, hlt⟩) = absAt absf t.du (i - 1) := by
      unfold absAt
      rw [hv]
    rw [if_pos h0]
    simp only [hv]
    by_cases hlast : i = n - 1
    · have hguard : ¬ i < t.dl.length := by omega
      have hidx : i - 1 = n - 2 := by omega
      rw [if_neg hguard, if_neg hi1, if_pos hlast, ← hidx, ← habsdu,
        add_zero]
    · have hguard : i < t.dl.length := by omega
      rw [if_pos hguard, if_neg hi1, if_neg hlast, ← habsdu, add_assoc]
  · have hi0 : i = 0 := by omega
    subst hi0
    rw [if_neg h0]
    by_cases hn2 : 0 < t.dl.length
    · simp [hn2]
    · simp [hn2, absAt_of_le absf t.dl 0 (by omega)]

/-- Claim C7: for a size-`n` tridiagonal matrix, `opnorm_one` returns the
maximum over columns `j < n` of `|d[j]|` plus the off-diagonal band entries
in column `j` — only `|dl[0]|` for column 0, only `|du[n-2]|` for column
`n-1`, and both `|dl[j]|` and `|du[j-1]|` for interior columns. -/
theorem c7_opnorm_one_max {A : Type} (absf : A → ℤ) (t : Tridiagonal A)
    (n : Nat) (hd : t.d.length = n) (hdl : t.dl.length = n - 1)
    (hdu : t.du.length = n - 1) (hn : 1 ≤ n) (habs : ∀ x, 0 ≤ absf x) :
    ∃ r : ℤ, opnorm_one absf t = .value r ∧
      (∀ j, j < n → claimColSum absf t n j ≤ r) ∧
      (∃ j, j < n ∧ r = claimColSum absf t n j) := by
  have htrav : traverseP (colSumAt absf t) (List.range t.d.length) =
      .value ((List.range n).map (claimColSum absf t n)) := by
    rw [hd]
    exact traverseP_eq_map _ _ _
      (fun i hi => colSumAt_eq_claim absf t n i hd hdl hdu
        (List.mem_range.mp hi))
  refine ⟨((List.range n).map (claimColSum absf t n)).foldl
    (fun mx v => if mx < v then v else mx) 0, ?_, ?_, ?_⟩
  · simp [opnorm_one, htrav]
  · intro j hj
    exact foldl_maxStep_le _ 0 _
      (List.mem_map_of_mem _ (List.mem_range.mpr hj))
  · rcases foldl_maxStep_mem ((List.range n).map (claimColSum absf t n)) 0
      with h | h
    · refine ⟨0, by omega, ?_⟩
      rw [h]
      refine le_antisymm (claimColSum_nonneg absf t n 0 habs) ?_
      rw [← h]
      exact foldl_maxStep_le _ 0 _
        (List.mem_map_of_mem _ (List.mem_range.mpr (by omega)))
    · obtain ⟨j, hj, hje⟩ := List.mem_map.mp h
      exact ⟨j, List.mem_range.mp hj, hje.symm⟩

/-- Witness for C7 on a concrete 3×3 tridiagonal matrix. -/
theorem c7_opnorm_one_max_witness :
    ∃ r : ℤ,
      opnorm_one (fun x => |x|)
          (Tridiagonal.mk (MatrixLayout.F 3 3) [4, 5] [1, -2, 3] [-6, 7]) =
        .value r ∧
      (∀ j, j < 3 → claimColSum (fun x => |x|)
          (Tridiagonal.mk (MatrixLayout.F 3 3) [4, 5] [1, -2, 3] [-6, 7])
          3 j ≤ r) ∧
      (∃ j, j < 3 ∧ r = claimColSum (fun x => |x|)
          (Tridiagonal.mk (MatrixLayout.F 3 3) [4, 5] [1, -2, 3] [-6, 7])
          3 j) :=
  c7_opnorm_one_max (fun x => |x|)
    (Tridiagonal.mk (MatrixLayout.F 3 3) [4, 5] [1, -2, 3] [-6, 7]) 3 rfl rfl
    rfl (by decide) (fun x => abs_nonneg x)

/-! ### Tridiagonal LU factorization and condition estimate -/

/-- The LU-factorized tridiagonal result (`tridiagonal.rs` lines 51-66),
carrying the factored bands, the second super-diagonal, the pivot and the
cached pre-factorization one-norm. -/
structure LUFactorizedTridiagonal (A : Type) : Type where
  a : Tridiagonal A
  du2 : List A
  ipiv : List Int
  a_opnorm_one : ℤ
deriving DecidableEq, Repr

/-- Arguments of one native `*gttrf` invocation: `n`, the three band buffers
at call time, and the lengths of the supplied `du2` and pivot buffers. -/
structure GttrfArgs (A : Type) : Type where
  n : Int
  dl : List A
  d : List A
  du : List A
  du2Len : Nat
  ipivLen : Nat
deriving DecidableEq, Repr

/-- Behaviour of a native `*gttrf` call: contents written into the band,
`du2` and pivot buffers, and the status code. -/
structure GttrfOut (A : Type) : Type where
  dl : Nat → A
  d : Nat → A
  du : Nat → A
  du2 : Nat → A
  ipiv : Nat → Int
  info : Int

/-- Embedding of `Tridiagonal_::lu_tridiagonal` (`tridiagonal.rs` lines
153-180): allocate `du2` with the signed length `n - 2` cast to `usize`
(which wraps for `n < 2`) and the pivot with `n` entries, compute the
one-norm strictly before the native factorization, invoke `*gttrf`, map
the status code, and assemble the result carrying the pre-factorization
norm. -/
def lu_tridiagonal {A : Type} (absf : A → ℤ)
    (gttrf : GttrfArgs A → GttrfOut A) (a : Tridiagonal A) :
    PanicOr (Except Error (LUFactorizedTridiagonal A)) ×
      List (GttrfArgs A) :=
  let n := a.l.size.1
  match vec_uninit (usizeCast (n - 2)) with
  | .panicked m => (.panicked m, [])
  | .value du2Len =>
  match vec_uninit (usizeCast n) with
  | .panicked m => (.panicked m, [])
  | .value ipivLen =>
  match opnorm_one absf a with
  | .panicked m => (.panicked m, [])
  | .value a_opnorm_one =>
  let args : GttrfArgs A := ⟨n, a.dl, a.d, a.du, du2Len, ipivLen⟩
  let out := gttrf args
  match asLapackResult out.info with
  | .error e => (.value (.error e), [args])
  | .ok _ =>
    (.value (.ok ⟨⟨a.l, (List.range a.dl.length).map out.dl,
        (List.range a.d.length).map out.d,
        (List.range a.du.length).map out.du⟩,
      (List.range du2Len).map out.du2,
      (List.range ipivLen).map out.ipiv, a_opnorm_one⟩), [args])

/-- Arguments of one native `*gtcon` invocation (the norm-type flag is
always the one-norm): `n`, the four factored bands, the pivot, the `anorm`
input, the work-buffer length and, for real scalars, the iwork length. -/
structure GtconArgs (A : Type) : Type where
  n : Int
  dl : List A
  d : List A
  du : List A
  du2 : List A
  ipiv : List Int
  anorm : ℤ
  workLen : Nat
  iworkLen : Option Nat
deriving DecidableEq, Repr

/-- Behaviour of a native `*gtcon` call: the reciprocal condition estimate
it writes and the status code. -/
structure GtconOut : Type where
  rcond : ℤ
  info : Int
deriving DecidableEq, Repr

/-- Embedding of `Tridiagonal_::rcond_tridiagonal` (`tridiagonal.rs` lines
182-209): allocate the work buffer of `2 * n` elements (plus the integer
scratch of `n` elements for real scalars), invoke `*gtcon` with the cached
pre-factorization one-norm, and map the status code. -/
def rcond_tridiagonal {A : Type} (hasIwork : Bool)
    (gtcon : GtconArgs A → GtconOut) (lufact : LUFactorizedTridiagonal A) :
    PanicOr (Except Error ℤ) × List (GtconArgs A) :=
  let n := lufact.a.l.size.1
  match vec_uninit (2 * usizeCast n) with
  | .panicked m => (.panicked m, [])
  | .value workLen =>
  match (if hasIwork then
           match vec_uninit (usizeCast n) with
           | .panicked m => PanicOr.panicked m
           | .value il => PanicOr.value (Option.some il)
         else PanicOr.value (Option.none : Option Nat)) with
  | .panicked m => (.panicked m, [])
  | .value iworkLen =>
  let args : GtconArgs A := ⟨n, lufact.a.dl, lufact.a.d, lufact.a.du,
    lufact.du2, lufact.ipiv, lufact.a_opnorm_one, workLen, iworkLen⟩
  let out := gtcon args
  match asLapackResult out.info with
  | .error e => (.value (.error e), [args])
  | .ok _ => (.value (.ok out.rcond), [args])

/-- A successful `vec_uninit` returns a buffer of exactly the requested
length. -/
theorem vec_uninit_value {k l : Nat} (h : vec_uninit k = .value l) :
    l = k := by
  unfold vec_uninit at h
  split at h
  · injection h with h2
    exact h2.symm
  · simp at h

/-- Claim C2: a successful `lu_tridiagonal` stores in the result the
one-norm of the original input (computed before the native factorization —
the native call itself receives the original bands, so the norm cannot have
been taken from the mutated ones), and every native condition-estimate call
made by `rcond_tridiagonal` receives exactly this cached pre-factorization
norm. -/
theorem c2_cached_prefactorization_norm {A : Type} (absf : A → ℤ)
    (gttrf : GttrfArgs A → GttrfOut A) (a : Tridiagonal A)
    (fact : LUFactorizedTridiagonal A) (tr : List (GttrfArgs A))
    (hok : lu_tridiagonal absf gttrf a = (.value (.ok fact), tr)) :
    (opnorm_one absf a = .value fact.a_opnorm_one ∧
     tr = [⟨a.l.size.1, a.dl, a.d, a.du, usizeCast (a.l.size.1 - 2),
       usizeCast a.l.size.1⟩]) ∧
    (∀ (hasIwork : Bool) (gtcon : GtconArgs A → GtconOut)
       (cargs : GtconArgs A),
      cargs ∈ (rcond_tridiagonal hasIwork gtcon fact).2 →
      cargs.anorm = fact.a_opnorm_one ∧
      opnorm_one absf a = .value cargs.anorm) := by
  have hmem : ∀ (hasIwork : Bool) (gtcon : GtconArgs A → GtconOut)
      (cargs : GtconArgs A),
      cargs ∈ (rcond_tridiagonal hasIwork gtcon fact).2 →
      cargs.anorm = fact.a_opnorm_one := by
    intro hasIwork gtcon cargs hc
    simp only [rcond_tridiagonal] at hc
    split at hc
    · simp at hc
    · split at hc
      · simp at hc
      · split at hc
        · simp at hc
          subst hc
          rfl
        · simp at hc
          subst hc
          rfl
  simp only [lu_tridiagonal] at hok
  split at hok
  · simp at hok
  · rename_i du2Len hdu2
    split at hok
    · simp at hok
    · rename_i ipivLen hipiv
      split at hok
      · simp at hok
      · rename_i nm hnorm
        split at hok
        · simp at hok
        · simp only [Prod.mk.injEq, PanicOr.value.injEq, Except.ok.injEq]
            at hok
          obtain ⟨hfact, htr⟩ := hok
          subst hfact
          refine ⟨⟨hnorm, ?_⟩, ?_⟩
          · rw [← htr, vec_uninit_value hdu2, vec_uninit_value hipiv]
          · intro hasIwork gtcon cargs hc
            refine ⟨hmem hasIwork gtcon cargs hc, ?_⟩
            rw [hmem hasIwork gtcon cargs hc]
            exact hnorm

/-- Claim C10: with a conceptual size of 0 or 1 the signed allocation
length `n - 2` wraps through the unsigned cast to an enormous value and
`lu_tridiagonal` aborts with the allocation panic before any native call;
with `n ≥ 2` it allocates the second super-diagonal with `n - 2` elements
and the pivot with `n` elements and proceeds to the native call. -/
theorem c10_lu_tridiagonal_small_n {A : Type} (absf : A → ℤ)
    (gttrf : GttrfArgs A → GttrfOut A) (a : Tridiagonal A) :
    ((a.l.size.1 = 0 ∨ a.l.size.1 = 1) →
      lu_tridiagonal absf gttrf a = (.panicked capacityOverflow, [])) ∧
    (2 ≤ a.l.size.1 → a.l.size.1 < 2 ^ 31 →
      ∀ nm, opnorm_one absf a = .value nm →
      (lu_tridiagonal absf gttrf a).2 =
        [⟨a.l.size.1, a.dl, a.d, a.du, (a.l.size.1 - 2).toNat,
          a.l.size.1.toNat⟩]) := by
  constructor
  · intro hs
    have hbig : ¬ usizeCast (a.l.size.1 - 2) ≤ isizeMax := by
      unfold usizeCast isizeMax
      rcases hs with h | h <;> rw [h] <;> omega
    simp [lu_tridiagonal, vec_uninit, hbig]
  · intro h2 h31 nm hnorm
    obtain ⟨hc2, hle2⟩ := usizeCast_small (x := a.l.size.1 - 2) (by omega)
      (by omega)
    obtain ⟨hcn, hlen⟩ := usizeCast_small (x := a.l.size.1) (by omega)
      (by omega)
    rcases hres : asLapackResult ((gttrf ⟨a.l.size.1, a.dl, a.d, a.du,
        (a.l.size.1 - 2).toNat, a.l.size.1.toNat⟩).info) with e | u <;>
      simp [lu_tridiagonal, vec_uninit, hc2, hle2, hcn, hlen, hnorm, hres]

/-! ### Concrete native models used by witnesses and counterexamples -/

/-- A `to_usize` model that always reports an optimal work size of 1. -/
def tuOne : ℚ → Option Nat := fun _ => some 1

/-- A native `*getri` model that writes zeros and reports success. -/
def getriZero : GetriArgs ℚ → GetriOut ℚ := fun _ => ⟨fun _ => 0, fun _ => 0, 0⟩

/-- A native `*getrf` model that writes zeros and reports success. -/
def getrfZero : GetrfArgs ℚ → GetrfOut ℚ := fun _ => ⟨fun _ => 0, fun _ => 1, 0⟩

/-- A native `*getrf` model that reports a singular matrix at index 2. -/
def getrfSing : GetrfArgs ℚ → GetrfOut ℚ := fun _ => ⟨fun _ => 0, fun _ => 1, 2⟩

/-- A native `*gesvd` model that writes zeros and reports success. -/
def gesvdZero : GesvdArgs ℚ → GesvdOut ℚ :=
  fun _ => ⟨fun _ => 0, fun _ => 0, fun _ => 0, fun _ => 0, fun _ => 0, 0⟩

/-- The integer absolute value, written so it evaluates by reduction — the
`Scalar::abs` model used by concrete witnesses. -/
def zabs : ℤ → ℤ := fun x => if x < 0 then -x else x

/-- A native `*gttrf` model that zeroes the bands, writes unit pivots and
reports success. -/
def gttrfZero : GttrfArgs ℤ → GttrfOut ℤ :=
  fun _ => ⟨fun _ => 0, fun _ => 0, fun _ => 0, fun _ => 0, fun _ => 1, 0⟩

/-- A native `*gtcon` model reporting a fixed condition estimate. -/
def gtconOne : GtconArgs ℤ → GtconOut := fun _ => ⟨1, 0⟩

/-- A concrete 3×3 tridiagonal matrix with one-norm 13 (middle column). -/
def triSample : Tridiagonal ℤ := ⟨.F 3 3, [4, 5], [1, 2, 3], [6, 7]⟩

/-- The factorization `lu_tridiagonal` produces for `triSample` under
`gttrfZero`. -/
def triFactSample : LUFactorizedTridiagonal ℤ :=
  ⟨⟨.F 3 3, [0, 0], [0, 0, 0], [0, 0]⟩, [0], [1, 1, 1], 13⟩

/-- The degenerate 0×0 tridiagonal matrix. -/
def triEmpty : Tridiagonal ℤ := ⟨.F 0 0, [], [], []⟩

/-- Claim C3 is false as stated: `inv` skips the native call only when the
row count is zero.  On a layout with one row and zero columns the native
routine is still invoked — the call trace is nonempty. -/
theorem c3_counterexample :
    (inv tuOne getriZero (.C 1 0) ([] : List ℚ) []).2 ≠ [] := by decide

/-- Claim C3 (amended): with the buffer-length invariant, `lu` on a layout
with zero rows or zero columns returns success with an empty `Pivot` and an
empty native call trace; `inv` returns success as a no-op with an empty
native call trace whenever the row count is zero (with zero columns but a
nonzero row count the native routine is still invoked). -/
theorem c3_lu_inv_degenerate {A : Type} (l : MatrixLayout) (a : List A)
    (ipiv : List Int) (row col : Int) (hl : l.size = (row, col))
    (hlen : i32Cast a.length = row * col) (hz : row = 0 ∨ col = 0) :
    (∀ getrf : GetrfArgs A → GetrfOut A,
      lu getrf l a = (.value (.ok (a, [])), [])) ∧
    (row = 0 →
      ∀ (toUsize : A → Option Nat) (getri : GetriArgs A → GetriOut A),
        inv toUsize getri l a ipiv = (.value (.ok a), [])) := by
  have h1 : l.size.1 = row := by rw [hl]
  have h2 : l.size.2 = col := by rw [hl]
  constructor
  · intro getrf
    simp [lu, h1, h2, hlen, hz]
  · intro hr toUsize getri
    simp [inv, h1, hr]

/-- Witness for the amended C3 at the empty 0×0 matrix. -/
theorem c3_lu_inv_degenerate_witness :
    lu getrfZero (.F 0 0) ([] : List ℚ) = (.value (.ok ([], [])), []) ∧
    inv tuOne getriZero (.F 0 0) ([] : List ℚ) [] = (.value (.ok []), []) :=
  ⟨(c3_lu_inv_degenerate (.F 0 0) [] [] 0 0 rfl (by decide) (Or.inl rfl)).1
      getrfZero,
   (c3_lu_inv_degenerate (.F 0 0) [] [] 0 0 rfl (by decide) (Or.inl rfl)).2
      rfl tuOne getriZero⟩

/-- Claim C9: for a nondegenerate `lu` call, a positive native status code
yields the computational-failure error carrying that code, a negative one
yields the invalid-argument error (checked immediately after the single
native call), and on a zero status the returned `Pivot` has length
`min(rows, cols)`. -/
theorem c9_lu_status_mapping {A : Type} (getrf : GetrfArgs A → GetrfOut A)
    (l : MatrixLayout) (a : List A) (row col : Int)
    (hl : l.size = (row, col)) (hlen : i32Cast a.length = row * col)
    (hnz : ¬(row = 0 ∨ col = 0)) (hr0 : 0 ≤ row) (hc0 : 0 ≤ col)
    (hr1 : row < 2 ^ 63) :
    ∃ args : GetrfArgs A,
      args = ⟨l.lda, l.len, a, l.lda, (min row col).toNat⟩ ∧
      ((getrf args).info > 0 →
        lu getrf l a =
          (.value (.error (.LapackComputationalFailure (getrf args).info)),
           [args])) ∧
      ((getrf args).info < 0 →
        lu getrf l a =
          (.value (.error (.LapackInvalidValue (getrf args).info)),
           [args])) ∧
      ((getrf args).info = 0 →
        ∃ a2 piv, lu getrf l a = (.value (.ok (a2, piv)), [args]) ∧
          piv.length = (min row col).toNat) := by
  have h1 : l.size.1 = row := by rw [hl]
  have h2 : l.size.2 = col := by rw [hl]
  have hmin : 0 ≤ min row col := le_min hr0 hc0
  have hmin2 : min row col < 2 ^ 63 := lt_of_le_of_lt (min_le_left _ _) hr1
  obtain ⟨hcast, hle⟩ := usizeCast_small hmin hmin2
  refine ⟨⟨l.lda, l.len, a, l.lda, (min row col).toNat⟩, rfl, ?_, ?_, ?_⟩
  · intro hpos
    simp [lu, h1, h2, hlen, hnz, hcast, vec_uninit, hle, asLapackResult, hpos]
  · intro hneg
    have : ¬((getrf ⟨l.lda, l.len, a, l.lda, (min row col).toNat⟩).info > 0) :=
      by omega
    simp [lu, h1, h2, hlen, hnz, hcast, vec_uninit, hle, asLapackResult,
      this, hneg]
  · intro hz
    refine ⟨(List.range a.length).map
        (getrf ⟨l.lda, l.len, a, l.lda, (min row col).toNat⟩).a,
      (List.range ((min row col).toNat)).map
        (getrf ⟨l.lda, l.len, a, l.lda, (min row col).toNat⟩).ipiv, ?_, ?_⟩
    · simp [lu, h1, h2, hlen, hnz, hcast, vec_uninit, hle, asLapackResult, hz]
    · simp

/-- Witness for C9 on a concrete 2×2 matrix whose native model reports the
second diagonal entry of U as zero. -/
theorem c9_lu_status_mapping_witness :
    ∃ args : GetrfArgs ℚ,
      args = ⟨(MatrixLayout.F 2 2).lda, (MatrixLayout.F 2 2).len,
        [1, 2, 3, 4], (MatrixLayout.F 2 2).lda, (min 2 2 : Int).toNat⟩ ∧
      ((getrfSing args).info > 0 →
        lu getrfSing (.F 2 2) [1, 2, 3, 4] =
          (.value (.error
            (.LapackComputationalFailure (getrfSing args).info)), [args])) ∧
      ((getrfSing args).info < 0 →
        lu getrfSing (.F 2 2) [1, 2, 3, 4] =
          (.value (.error (.LapackInvalidValue (getrfSing args).info)),
           [args])) ∧
      ((getrfSing args).info = 0 →
        ∃ a2 piv, lu getrfSing (.F 2 2) [1, 2, 3, 4] =
            (.value (.ok (a2, piv)), [args]) ∧
          piv.length = (min 2 2 : Int).toNat) :=
  c9_lu_status_mapping getrfSing (.F 2 2) [1, 2, 3, 4] 2 2 rfl (by decide)
    (by decide) (by decide) (by decide) (by decide)

/-- Witness for C4: a partial left-job request on a concrete 2×2 matrix
panics with the unimplemented message and an empty native trace. -/
theorem c4_svd_partial_unimplemented_witness :
    svd_with_jobs false tuOne gesvdZero (.F 2 2) .Some .None [1, 2, 3, 4] =
      (.panicked unimplementedPartialSvd, []) :=
  c4_svd_partial_unimplemented false tuOne gesvdZero (.F 2 2) .Some .None
    [1, 2, 3, 4] (Or.inl rfl) (by decide) (by decide)

/-- Witness for C5 at a concrete 1×1 row-major call with both sides
requested. -/
theorem c5_svd_row_major_swap_witness :
    ∃ (qargs rargs : GesvdArgs ℚ) (out : SVDOutput ℚ),
      svd true tuOne gesvdZero (.C 1 1) true true [1] =
        (.value (.ok out), [qargs, rargs]) ∧
      qargs.ju = JobSvd.from_bool true ∧
      qargs.jvt = JobSvd.from_bool true ∧
      rargs.ju = JobSvd.from_bool true ∧
      rargs.jvt = JobSvd.from_bool true ∧
      out.u = (if true then
          Option.some ((List.range (((1 : Int) * 1).toNat)).map
            (gesvdZero rargs).vt)
        else Option.none) ∧
      out.vt = (if true then
          Option.some ((List.range (((1 : Int) * 1).toNat)).map
            (gesvdZero rargs).u)
        else Option.none) ∧
      out.u.map List.length =
        (if true then Option.some (((1 : Int) * 1).toNat)
         else Option.none) ∧
      out.vt.map List.length =
        (if true then Option.some (((1 : Int) * 1).toNat)
         else Option.none) ∧
      out.s.length = (min (1 : Int) 1).toNat :=
  c5_svd_row_major_swap true tuOne gesvdZero 1 1 true true [1] 1
    (fun _ => rfl) (by decide) (fun _ => rfl) (by decide) (by decide)
    (by decide) (by decide)

/-- Witness for C6 at concrete 1×1 inverse and svd calls with an
always-successful native model reporting an optimal work size of 1. -/
theorem c6_workspace_protocol_witness :
    (inv tuOne getriZero (.F 1 1) [5] [1]).2 =
      [⟨(MatrixLayout.F 1 1).size.1, [5], (MatrixLayout.F 1 1).lda, [1], 1,
        -1⟩,
       ⟨(MatrixLayout.F 1 1).len, (List.range (([5] : List ℚ)).length).map
          (getriZero ⟨(MatrixLayout.F 1 1).size.1, [5],
            (MatrixLayout.F 1 1).lda, [1], 1, -1⟩).a,
        (MatrixLayout.F 1 1).lda, [1], 1, i32Cast 1⟩] ∧
    (∃ qargs rargs : GesvdArgs ℚ,
      (svd true tuOne gesvdZero (.F 1 1) true true [7]).2 = [qargs, rargs] ∧
      qargs.workLen = 1 ∧ qargs.lwork = -1 ∧
      rargs.workLen = 1 ∧ rargs.lwork = i32Cast 1 ∧
      qargs.rworkLen =
        (if true then
          Option.some (5 * (min (MatrixLayout.F 1 1).lda
            (MatrixLayout.F 1 1).len).toNat)
         else Option.none) ∧
      rargs.rworkLen = qargs.rworkLen) :=
  c6_workspace_protocol tuOne 1 (fun _ => rfl) (by decide) getriZero
    (fun _ => rfl) gesvdZero (fun _ => rfl) (.F 1 1) (.F 1 1) [5] [7] [1]
    true true true (by decide) (by decide) (by decide) (by decide) (by decide)

/-- Witness for C2 at the concrete 3×3 factorization: the cached norm is the
pre-factorization one-norm 13 and the condition-estimate call receives it. -/
theorem c2_cached_prefactorization_norm_witness :
    ((opnorm_one zabs triSample = .value triFactSample.a_opnorm_one ∧
      ([⟨3, [4, 5], [1, 2, 3], [6, 7], 1, 3⟩] : List (GttrfArgs ℤ)) =
        [⟨triSample.l.size.1, triSample.dl, triSample.d, triSample.du,
          usizeCast (triSample.l.size.1 - 2),
          usizeCast triSample.l.size.1⟩]) ∧
     ((⟨3, [0, 0], [0, 0, 0], [0, 0], [0], [1, 1, 1], 13, 6,
         Option.some 3⟩ : GtconArgs ℤ).anorm = triFactSample.a_opnorm_one ∧
      opnorm_one zabs triSample =
        .value (⟨3, [0, 0], [0, 0, 0], [0, 0], [0], [1, 1, 1], 13, 6,
          Option.some 3⟩ : GtconArgs ℤ).anorm)) :=
  have h := c2_cached_prefactorization_norm zabs gttrfZero triSample
    triFactSample [⟨3, [4, 5], [1, 2, 3], [6, 7], 1, 3⟩] (by decide)
  ⟨h.1, h.2 true gtconOne _ (by decide)⟩

/-- Witness for C10: size 0 aborts with the capacity-overflow panic before
any native call; the concrete 3×3 input proceeds with `du2` of 1 element
and a pivot of 3 elements. -/
theorem c10_lu_tridiagonal_small_n_witness :
    lu_tridiagonal zabs gttrfZero triEmpty =
      (.panicked capacityOverflow, []) ∧
    (lu_tridiagonal zabs gttrfZero triSample).2 =
      [⟨triSample.l.size.1, triSample.dl, triSample.d, triSample.du,
        (triSample.l.size.1 - 2).toNat, triSample.l.size.1.toNat⟩] :=
  ⟨(c10_lu_tridiagonal_small_n zabs gttrfZero triEmpty).1 (Or.inl rfl),
   (c10_lu_tridiagonal_small_n zabs gttrfZero triSample).2 (by decide)
     (by decide) 13 (by decide)⟩

end Lax
